import Mathlib

/-!
Shallow embedding of the apple-mail-mcp service layer
(`src/services/appleMailManager.ts`) and verification of its specified
properties.

Strings are modelled as `List Char` (JavaScript strings are sequences of
code units; all the code under study manipulates them by character).  The
external AppleScript execution boundary
(`executeAppleScript(script) -> {success, output, error}`) is modelled as
an arbitrary function from the script text to a result record, bundled in
a `JsEnv` together with the JavaScript runtime's date facilities
(`new Date(string)` parsing and `new Date()` current time), over which all
theorems quantify.
-/

namespace AppleMailMCP

/-- Character-list strings, the representation used throughout. -/
abbrev Str := List Char

/-- Convenience conversion from a Lean string literal. -/
def str (s : String) : Str := s.toList

/-- Whitespace class used by JavaScript `trim`, `\s` and `parseInt`
(ASCII subset; the source never feeds exotic Unicode whitespace). -/
def isJsSpace (c : Char) : Bool :=
  c = ' ' || c = '\t' || c = '\n' || c = '\r' || c = '\x0b' || c = '\x0c'

/-- `beginsWith s p` is true when `p` is a leading segment of `s`
(JavaScript `s.startsWith(p)`). -/
def beginsWith : Str → Str → Bool
  | _, [] => true
  | [], _ :: _ => false
  | c :: cs, p :: ps => c = p && beginsWith cs ps

/-- Splits `s` at the first occurrence of `sep`, returning the part before
and the part after the separator, or `none` when `sep` does not occur.
(`findSplit [] s` finds an occurrence at position 0 for nonempty `s`.) -/
def findSplit (sep : Str) : Str → Option (Str × Str)
  | [] => none
  | c :: rest =>
    if beginsWith (c :: rest) sep then some ([], (c :: rest).drop sep.length)
    else
      match findSplit sep rest with
      | some (pre, post) => some (c :: pre, post)
      | none => none

/-- JavaScript `s.includes(pat)` for nonempty `pat` (the source only ever
checks nonempty patterns such as `"sent"` or `"not authorized"`). -/
def includesSub (s pat : Str) : Bool := (findSplit pat s).isSome

/-- JavaScript `s.trim()`: strip leading and trailing whitespace. -/
def trimStr (s : Str) : Str :=
  ((s.dropWhile isJsSpace).reverse.dropWhile isJsSpace).reverse

/-- JavaScript `s.toLowerCase()` on the ASCII range (mailbox and alias
names in the source are ASCII). -/
def toLowerStr (s : Str) : Str := s.map Char.toLower

/-- Decimal rendering of a natural number, for `${n}` interpolations. -/
def natStr (n : Nat) : Str := (Nat.repr n).toList

/-- Fuel-driven worker for `splitOnStr`; fuel `s.length + 1` always
suffices because each found separator occurrence strictly shrinks the
remainder (the separators used by the source are nonempty). -/
def splitOnGo (sep : Str) : Nat → Str → List Str
  | 0, s => [s]
  | fuel + 1, s =>
    match findSplit sep s with
    | none => [s]
    | some (pre, post) => pre :: splitOnGo sep fuel post

/-- JavaScript `s.split(sep)` for a nonempty string separator `sep`:
the list of chunks between non-overlapping leftmost occurrences of
`sep`; always at least one chunk (`[s]` when `sep` does not occur). -/
def splitOnStr (sep s : Str) : List Str := splitOnGo sep (s.length + 1) s

/-- Escapes text for embedding in an AppleScript double-quoted string
literal: first every backslash is doubled, then every double quote gets a
backslash (the two global `replace` calls of `escapeForAppleScript`; the
`if (!text) return ""` guard is the identity on the empty string). -/
def escapeForAppleScript (text : Str) : Str :=
  ((text.map fun c => if c = '\\' then ['\\', '\\'] else [c]).flatten.map
    fun c => if c = '"' then ['\\', '"'] else [c]).flatten

/-- Interpretation of the body of an AppleScript double-quoted literal:
a backslash escapes the character after it, every other character stands
for itself. -/
def unescapeLiteral : Str → Str
  | [] => []
  | [c] => [c]
  | c :: d :: rest =>
    if c = '\\' then d :: unescapeLiteral rest
    else c :: unescapeLiteral (d :: rest)

/-- Embeds escaped text in a double-quoted command literal, as every
generated script does with interpolated free text. -/
def embedInLiteral (s : Str) : Str := '"' :: (escapeForAppleScript s ++ ['"'])

/-- Re-extraction of the text denoted by a double-quoted command literal:
strip the surrounding quotes and un-escape the body. -/
def extractLiteral (s : Str) : Option Str :=
  match s with
  | '"' :: rest =>
    if rest.getLast? = some '"' then some (unescapeLiteral rest.dropLast) else none
  | _ => none

/-- Per-character form of the two composed `replace` passes. -/
def escChar (c : Char) : Str :=
  if c = '\\' then ['\\', '\\'] else if c = '"' then ['\\', '"'] else [c]

theorem escapeForAppleScript_nil : escapeForAppleScript [] = [] := rfl

theorem escapeForAppleScript_cons (c : Char) (s : Str) :
    escapeForAppleScript (c :: s) = escChar c ++ escapeForAppleScript s := by
  simp only [escapeForAppleScript, escChar, List.map_cons, List.flatten_cons,
    List.map_append, List.flatten_append]
  by_cases hb : c = '\\'
  · subst hb; simp
  · by_cases hq : c = '"'
    · subst hq; simp
    · simp [hb, hq]

theorem unescapeLiteral_cons_ne (c : Char) (s : Str) (hb : c ≠ '\\') :
    unescapeLiteral (c :: s) = c :: unescapeLiteral s := by
  cases s with
  | nil => rfl
  | cons d t => simp [unescapeLiteral, hb]

theorem unescape_escape (s : Str) :
    unescapeLiteral (escapeForAppleScript s) = s := by
  induction s with
  | nil => rfl
  | cons c s ih =>
    rw [escapeForAppleScript_cons]
    by_cases hb : c = '\\'
    · subst hb; simp [escChar, unescapeLiteral, ih]
    · by_cases hq : c = '"'
      · subst hq; simp [escChar, unescapeLiteral, ih]
      · simp only [escChar, if_neg hb, if_neg hq, List.singleton_append]
        rw [unescapeLiteral_cons_ne c _ hb, ih]

/-- C1: for every text string (in particular every one containing
backslashes or quote characters), escaping with `escapeForAppleScript`
(backslashes first, then quotes), embedding the result in a double-quoted
command literal, and re-extracting by the inverse interpretation of the
escaped literal reproduces the original text exactly; consequently the
escaping function is injective. -/
theorem escape_embed_roundtrip :
    (∀ s : Str, extractLiteral (embedInLiteral s) = some s) ∧
    (∀ s t : Str, escapeForAppleScript s = escapeForAppleScript t → s = t) := by
  have hround : ∀ s : Str, extractLiteral (embedInLiteral s) = some s := by
    intro s
    show extractLiteral ('"' :: (escapeForAppleScript s ++ ['"'])) = some s
    rw [show escapeForAppleScript s ++ ['"'] = (escapeForAppleScript s).concat '"' by
      simp [List.concat_eq_append]]
    simp [extractLiteral, List.getLast?_concat, List.dropLast_concat, unescape_escape]
  refine ⟨hround, fun s t h => ?_⟩
  have := unescape_escape s
  rw [h, unescape_escape t] at this
  exact this.symm

/-- Witness for C1 at the concrete text `a\"b`, which contains both a
backslash and a quote character. -/
theorem escape_embed_roundtrip_wit :
    extractLiteral (embedInLiteral (str "a\\\"b")) = some (str "a\\\"b") ∧
    str "a\\\"b" = str "a\\\"b" :=
  ⟨escape_embed_roundtrip.1 (str "a\\\"b"),
    escape_embed_roundtrip.2 (str "a\\\"b") (str "a\\\"b") (by rfl)⟩

/-- Result record of the external execution boundary
(`AppleScriptResult` in `types.ts`): success flag, stdout text, and an
optional error message. -/
structure AppleScriptResult where
  success : Bool
  output : Str
  error : Option Str
deriving DecidableEq, Inhabited

/-- The ambient JavaScript runtime: `run` models
`executeAppleScript(script)` (options such as `timeoutMs` do not affect
the returned record), `dateParse` models `new Date(string)` returning a
timestamp when the string is accepted and `none` when the result would be
`NaN`, and `now` models `new Date()`. -/
structure JsEnv where
  run : Str → AppleScriptResult
  dateParse : Str → Option Int
  now : Int

/-- Strips the match of `/^date\s+/`: the literal tag `date` followed by
one or more whitespace characters (greedy, so the whole leading
whitespace run after the tag is removed). -/
def stripDateTag (s : Str) : Str :=
  match s with
  | 'd' :: 'a' :: 't' :: 'e' :: c :: rest =>
    if isJsSpace c then (c :: rest).dropWhile isJsSpace
    else 'd' :: 'a' :: 't' :: 'e' :: c :: rest
  | _ => s

/-- JavaScript `s.replace(pat, repl)` with a string pattern: replaces the
first occurrence only (used with the nonempty pattern `" at "`). -/
def replaceFirst (pat repl : Str) : Str → Str
  | [] => []
  | c :: rest =>
    if beginsWith (c :: rest) pat then repl ++ (c :: rest).drop pat.length
    else c :: replaceFirst pat repl rest

/-- Normalization step of `parseAppleScriptDate`: strip the `date ` tag
and replace the first `" at "` with a space. -/
def normalizeAppleScriptDate (appleScriptDate : Str) : Str :=
  replaceFirst (str " at ") (str " ") (stripDateTag appleScriptDate)

/-- `parseAppleScriptDate`: delegate the normalized text to generic date
parsing, substituting the current time when parsing fails (`isNaN`). -/
def parseAppleScriptDate (env : JsEnv) (appleScriptDate : Str) : Int :=
  match env.dateParse (normalizeAppleScriptDate appleScriptDate) with
  | some t => t
  | none => env.now

/-- `buildAccountScopedScript`: wrap a command in a
`tell application "Mail" / tell account "..."` block. -/
def buildAccountScopedScript (account command : Str) : Str :=
  str "\n    tell application \"Mail\"\n      tell account \"" ++
    escapeForAppleScript account ++
    str "\"\n        " ++ command ++
    str "\n      end tell\n    end tell\n  "

/-- `buildAppLevelScript`: wrap a command in a
`tell application "Mail"` block. -/
def buildAppLevelScript (command : Str) : Str :=
  str "\n    tell application \"Mail\"\n      " ++ command ++
    str "\n    end tell\n  "

/-- `MAILBOX_ALIASES`: static table mapping normalized (lowercase)
mailbox role names to possible actual names. -/
def MAILBOX_ALIASES (key : Str) : Option (List Str) :=
  if key = str "inbox" then some [str "INBOX", str "Inbox", str "inbox"]
  else if key = str "sent" then
    some [str "Sent", str "Sent Items", str "Sent Messages", str "SENT", str "sent"]
  else if key = str "drafts" then
    some [str "Drafts", str "DRAFTS", str "drafts", str "Draft"]
  else if key = str "trash" then
    some [str "Trash", str "Deleted Items", str "Deleted Messages", str "TRASH",
      str "trash"]
  else if key = str "junk" then
    some [str "Junk", str "Junk Email", str "Spam", str "JUNK", str "junk"]
  else if key = str "archive" then
    some [str "Archive", str "ARCHIVE", str "archive", str "All Mail"]
  else none

/-- Account record (`Account` in `types.ts`, the fields the parser
populates). -/
structure Account where
  name : Str
  email : Str
  enabled : Bool
deriving DecidableEq, Inhabited

/-- The script built by `listAccounts`. -/
def listAccountsScript : Str :=
  buildAppLevelScript (str
    "\n      set accountList to \x7b\x7d\n      repeat with acct in accounts\n        set acctName to name of acct\n        set acctEmail to email addresses of acct\n        set acctEnabled to enabled of acct\n        set emailStr to \"\"\n        if (count of acctEmail) > 0 then\n          set emailStr to item 1 of acctEmail\n        end if\n        set end of accountList to acctName & \"|||\" & emailStr & \"|||\" & acctEnabled\n      end repeat\n      set AppleScript\x27s text item delimiters to \"|||ITEM|||\"\n      return accountList as text\n    ")

/-- The record-splitting loop body of `listAccounts`: one `Account` per
item with at least three fields, items with fewer fields skipped. -/
def parseAccountItems : List Str → List Account
  | [] => []
  | item :: rest =>
    let parts := splitOnStr (str "|||") item
    if parts.length < 3 then parseAccountItems rest
    else
      { name := parts.getD 0 [], email := parts.getD 1 [],
        enabled := parts.getD 2 [] = str "true" } :: parseAccountItems rest

/-- `listAccounts`: run the listing script and parse its delimited
output; empty list on failure or blank output. -/
def listAccounts (env : JsEnv) : List Account :=
  let result := env.run listAccountsScript
  if !result.success then []
  else if trimStr result.output = [] then []
  else parseAccountItems (splitOnStr (str "|||ITEM|||") result.output)

/-- JavaScript truthiness of an optional string: `undefined`/`null` and
the empty string are falsy. -/
def truthy : Option Str → Bool
  | none => false
  | some s => !s.isEmpty

/-- `resolveAccount`, with the instance field `defaultAccount` passed and
returned explicitly as `st`: return the requested account if truthy, else
the cached default if truthy, else query the account list once, caching
and returning the first account name, falling back to the literal
`iCloud` when no account is found. -/
def resolveAccount (env : JsEnv) (st : Option Str) (account : Option Str) :
    Str × Option Str :=
  if truthy account then (account.getD [], st)
  else if truthy st then (st.getD [], st)
  else
    match listAccounts env with
    | a :: _ => (a.name, some a.name)
    | [] => (str "iCloud", st)

/-- The account-scoped script `resolveMailbox` runs to fetch the live
mailbox name list. -/
def mailboxListScript (account : Str) : Str :=
  buildAccountScopedScript account (str
    "\n      set mbNames to \x7b\x7d\n      repeat with mb in mailboxes\n        set end of mbNames to name of mb\n      end repeat\n      return mbNames\n    ")

/-- Parsing of the fetched mailbox list: AppleScript returns the names
comma-separated; split on `", "` and trim each entry. -/
def parseMailboxNames (output : Str) : List Str :=
  (splitOnStr (str ", ") output).map trimStr

/-- Step 3 of `resolveMailbox`: scan the alias candidates in order, each
tried as an exact member of the actual list first and case-insensitively
second; fall through to the requested name. -/
def aliasScan (mailbox : Str) (actualMailboxes : List Str) : List Str → Str
  | [] => mailbox
  | a :: rest =>
    if actualMailboxes.contains a then a
    else
      match actualMailboxes.find? (fun mb => toLowerStr mb == toLowerStr a) with
      | some aliasMatch => aliasMatch
      | none => aliasScan mailbox actualMailboxes rest

/-- Steps 1-4 of `resolveMailbox` over the parsed live mailbox list:
exact match, case-insensitive match, alias-table scan, identity
fallback. -/
def resolveMailboxIn (mailbox : Str) (actualMailboxes : List Str) : Str :=
  if actualMailboxes.contains mailbox then mailbox
  else
    let lowerMailbox := toLowerStr mailbox
    match actualMailboxes.find? (fun mb => toLowerStr mb == lowerMailbox) with
    | some caseMatch => caseMatch
    | none =>
      match MAILBOX_ALIASES lowerMailbox with
      | some aliases => aliasScan mailbox actualMailboxes aliases
      | none => mailbox

/-- `resolveMailbox`: fetch the account's mailbox names and resolve the
requested name against them; fall back to the requested name when the
fetch fails or returns no output. -/
def resolveMailbox (env : JsEnv) (mailbox account : Str) : Str :=
  let result := env.run (mailboxListScript account)
  if !result.success || result.output.isEmpty then mailbox
  else resolveMailboxIn mailbox (parseMailboxNames result.output)

/-- Message record (`Message` in `types.ts`, the fields the service layer
populates; `dateReceived` is a timestamp). -/
structure Message where
  id : Str
  subject : Str
  sender : Str
  recipients : List Str
  dateReceived : Int
  isRead : Bool
  isFlagged : Bool
  isJunk : Bool
  isDeleted : Bool
  mailbox : Str
  account : Str
  hasAttachments : Bool
deriving DecidableEq, Inhabited

/-- The record a row of `parseMessageList` with at least six fields is
turned into: first six fields projected, recipients fixed empty, junk and
deleted flags fixed false, attachment presence fixed false. -/
def messageOfParts (env : JsEnv) (mailbox account : Str) (parts : List Str) :
    Message :=
  { id := trimStr (parts.getD 0 []), subject := parts.getD 1 [],
    sender := parts.getD 2 [], recipients := [],
    dateReceived := parseAppleScriptDate env (parts.getD 3 []),
    isRead := parts.getD 4 [] = str "true",
    isFlagged := parts.getD 5 [] = str "true",
    isJunk := false, isDeleted := false, mailbox := mailbox,
    account := account, hasAttachments := false }

/-- The per-item loop of `parseMessageList`: split each item on the field
separator, skip items with fewer than six fields, emit one message per
remaining item. -/
def parseMessageItems (env : JsEnv) (mailbox account : Str) :
    List Str → List Message
  | [] => []
  | item :: rest =>
    let parts := splitOnStr (str "|||") item
    if parts.length < 6 then parseMessageItems env mailbox account rest
    else messageOfParts env mailbox account parts ::
      parseMessageItems env mailbox account rest

/-- `parseMessageList`: split the raw output on the record separator
`|||ITEM|||`, then parse each item. -/
def parseMessageList (env : JsEnv) (output mailbox account : Str) :
    List Message :=
  parseMessageItems env mailbox account (splitOnStr (str "|||ITEM|||") output)

/-- The search command of `searchMessages` (the `whose ...` condition is
present only for a truthy query). -/
def searchCommand (searchCondition targetMailbox : Str) (limit : Nat) : Str :=
  str "\n      set outputText to \"\"\n      set theMailbox to mailbox \"" ++
    escapeForAppleScript targetMailbox ++
    str "\"\n      set allMessages to messages of theMailbox " ++
    searchCondition ++
    str "\n      set msgCount to 0\n      repeat with msg in allMessages\n        if msgCount >= " ++
    natStr limit ++
    str " then exit repeat\n        try\n          set msgId to id of msg as string\n          set msgSubject to subject of msg\n          set msgSender to sender of msg\n          set msgDate to date received of msg as string\n          set msgRead to read status of msg as string\n          set msgFlagged to flagged status of msg as string\n          if msgCount > 0 then set outputText to outputText & \"|||ITEM|||\"\n          set outputText to outputText & msgId & \"|||\" & msgSubject & \"|||\" & msgSender & \"|||\" & msgDate & \"|||\" & msgRead & \"|||\" & msgFlagged\n          set msgCount to msgCount + 1\n        end try\n      end repeat\n      return outputText\n    "

/-- The `whose` filter interpolated for a truthy search query. -/
def searchConditionFor (safeQuery : Str) : Str :=
  str "whose subject contains \"" ++ safeQuery ++
    str "\" or sender contains \"" ++ safeQuery ++ str "\""

/-- `searchMessages`: resolve names, build and run the search script,
parse the delimited output; empty list on failure or blank output.  The
instance field `defaultAccount` is threaded as `st`. -/
def searchMessages (env : JsEnv) (st : Option Str)
    (query mailbox account : Option Str) (limit : Nat) :
    List Message × Option Str :=
  let res := resolveAccount env st account
  let targetAccount := res.1
  let requestedMailbox := if truthy mailbox then mailbox.getD [] else str "INBOX"
  let targetMailbox := resolveMailbox env requestedMailbox targetAccount
  let searchCondition :=
    if truthy query then searchConditionFor (escapeForAppleScript (query.getD []))
    else []
  let script := buildAccountScopedScript targetAccount
    (searchCommand searchCondition targetMailbox limit)
  let result := env.run script
  if !result.success then ([], res.2)
  else if (trimStr result.output).isEmpty then ([], res.2)
  else (parseMessageList env result.output targetMailbox targetAccount, res.2)

/-- The listing command of `listMessages`. -/
def listCommand (targetMailbox : Str) (limit : Nat) : Str :=
  str "\n      set outputText to \"\"\n      set theMailbox to mailbox \"" ++
    escapeForAppleScript targetMailbox ++
    str "\"\n      set msgCount to 0\n      repeat with msg in messages of theMailbox\n        if msgCount >= " ++
    natStr limit ++
    str " then exit repeat\n        try\n          set msgId to id of msg as string\n          set msgSubject to subject of msg\n          set msgSender to sender of msg\n          set msgDate to date received of msg as string\n          set msgRead to read status of msg as string\n          set msgFlagged to flagged status of msg as string\n          if msgCount > 0 then set outputText to outputText & \"|||ITEM|||\"\n          set outputText to outputText & msgId & \"|||\" & msgSubject & \"|||\" & msgSender & \"|||\" & msgDate & \"|||\" & msgRead & \"|||\" & msgFlagged\n          set msgCount to msgCount + 1\n        end try\n      end repeat\n      return outputText\n    "

/-- `listMessages`: resolve names, build and run the listing script,
parse the delimited output; empty list on failure or blank output. -/
def listMessages (env : JsEnv) (st : Option Str)
    (mailbox account : Option Str) (limit : Nat) :
    List Message × Option Str :=
  let res := resolveAccount env st account
  let targetAccount := res.1
  let requestedMailbox := if truthy mailbox then mailbox.getD [] else str "INBOX"
  let targetMailbox := resolveMailbox env requestedMailbox targetAccount
  let script := buildAccountScopedScript targetAccount
    (listCommand targetMailbox limit)
  let result := env.run script
  if !result.success then ([], res.2)
  else if (trimStr result.output).isEmpty then ([], res.2)
  else (parseMessageList env result.output targetMailbox targetAccount, res.2)

/-- The all-accounts scan script of `getMessageById`. -/
def getMessageByIdScript (id : Str) : Str :=
  buildAppLevelScript
    (str "\n      try\n        repeat with acct in accounts\n          repeat with mb in mailboxes of acct\n            try\n              set matchingMsgs to (messages of mb whose id is " ++
      id ++
      str ")\n              if (count of matchingMsgs) > 0 then\n                set msg to item 1 of matchingMsgs\n                set msgSubject to subject of msg\n                set msgSender to sender of msg\n                set msgDate to date received of msg as string\n                set msgRead to read status of msg as string\n                set msgFlagged to flagged status of msg as string\n                set msgJunk to junk mail status of msg as string\n                set msgDeleted to deleted status of msg as string\n                set msgMailbox to name of mb\n                set msgAccount to name of acct\n                return msgSubject & \"|||\" & msgSender & \"|||\" & msgDate & \"|||\" & msgRead & \"|||\" & msgFlagged & \"|||\" & msgJunk & \"|||\" & msgDeleted & \"|||\" & msgMailbox & \"|||\" & msgAccount\n              end if\n            end try\n          end repeat\n        end repeat\n        return \"\"\n      on error errMsg\n        return \"\"\n      end try\n    ")

/-- `getMessageById`: run the scan script; `none` on failure, blank
output, or fewer than nine fields; otherwise project the fields, with
recipients fixed empty and attachment presence fixed false. -/
def getMessageById (env : JsEnv) (id : Str) : Option Message :=
  let result := env.run (getMessageByIdScript id)
  if !result.success || (trimStr result.output).isEmpty then none
  else
    let parts := splitOnStr (str "|||") result.output
    if parts.length < 9 then none
    else some
      { id := id, subject := parts.getD 0 [], sender := parts.getD 1 [],
        recipients := [],
        dateReceived := parseAppleScriptDate env (parts.getD 2 []),
        isRead := parts.getD 3 [] = str "true",
        isFlagged := parts.getD 4 [] = str "true",
        isJunk := parts.getD 5 [] = str "true",
        isDeleted := parts.getD 6 [] = str "true",
        mailbox := parts.getD 7 [], account := parts.getD 8 [],
        hasAttachments := false }

/-- Maximal leading run of decimal digits, `none` if there is none. -/
def parseDecDigits (s : Str) : Option Nat :=
  let ds := s.takeWhile Char.isDigit
  if ds.isEmpty then none
  else some (ds.foldl (fun acc c => acc * 10 + (c.toNat - 48)) 0)

/-- Hexadecimal digit test. -/
def isHexChar (c : Char) : Bool :=
  c.isDigit || ('a' ≤ c && c ≤ 'f') || ('A' ≤ c && c ≤ 'F')

/-- Hexadecimal digit value (meaningful when `isHexChar` holds). -/
def hexVal (c : Char) : Nat :=
  if c.isDigit then c.toNat - 48
  else if 'a' ≤ c && c ≤ 'f' then c.toNat - 87
  else c.toNat - 55

/-- Maximal leading run of hexadecimal digits, `none` if there is none. -/
def parseHexDigits (s : Str) : Option Nat :=
  let ds := s.takeWhile isHexChar
  if ds.isEmpty then none
  else some (ds.foldl (fun acc c => acc * 16 + hexVal c) 0)

/-- Unsigned part of JavaScript `parseInt` without an explicit radix:
a `0x`/`0X` tag selects base 16, otherwise base 10; `none` models
`NaN`. -/
def parseIntNoSign (s : Str) : Option Nat :=
  match s with
  | '0' :: 'x' :: rest => parseHexDigits rest
  | '0' :: 'X' :: rest => parseHexDigits rest
  | _ => parseDecDigits s

/-- JavaScript `parseInt(s)`: skip leading whitespace, optional sign,
then the maximal digit run; `none` models `NaN`. -/
def parseIntJS (s : Str) : Option Int :=
  let t := s.dropWhile isJsSpace
  match t with
  | '-' :: rest => (parseIntNoSign rest).map fun n => -(n : Int)
  | '+' :: rest => (parseIntNoSign rest).map fun n => (n : Int)
  | _ => (parseIntNoSign t).map fun n => (n : Int)

/-- The idiom `parseInt(x) || 0` of the source: `NaN` becomes 0, and
`0 || 0` is 0 as well, so this coincides with defaulting the failed parse
to 0. -/
def parseIntOrZero (s : Str) : Int := (parseIntJS s).getD 0

/-- Mailbox record (`Mailbox` in `types.ts`). -/
structure Mailbox where
  name : Str
  account : Str
  unreadCount : Int
  messageCount : Int
deriving DecidableEq, Inhabited

/-- The account-scoped listing command of `listMailboxes`. -/
def listMailboxesCommand : Str :=
  str "\n      set mailboxList to \x7b\x7d\n      repeat with mb in mailboxes\n        set mbName to name of mb\n        set mbUnread to unread count of mb\n        set mbCount to count of messages of mb\n        set end of mailboxList to mbName & \"|||\" & mbUnread & \"|||\" & mbCount\n      end repeat\n      set AppleScript\x27s text item delimiters to \"|||ITEM|||\"\n      return mailboxList as text\n    "

/-- The record-splitting loop body of `listMailboxes`. -/
def parseMailboxItems (targetAccount : Str) : List Str → List Mailbox
  | [] => []
  | item :: rest =>
    let parts := splitOnStr (str "|||") item
    if parts.length < 3 then parseMailboxItems targetAccount rest
    else
      { name := parts.getD 0 [], account := targetAccount,
        unreadCount := parseIntOrZero (parts.getD 1 []),
        messageCount := parseIntOrZero (parts.getD 2 []) } ::
        parseMailboxItems targetAccount rest

/-- `listMailboxes`: resolve the account, run the listing script, parse
the delimited output; empty list on failure or blank output. -/
def listMailboxes (env : JsEnv) (st : Option Str) (account : Option Str) :
    List Mailbox × Option Str :=
  let res := resolveAccount env st account
  let result := env.run (buildAccountScopedScript res.1 listMailboxesCommand)
  if !result.success then ([], res.2)
  else if (trimStr result.output).isEmpty then ([], res.2)
  else
    (parseMailboxItems res.1 (splitOnStr (str "|||ITEM|||") result.output), res.2)

/-- One `to` recipient line of the send/draft scripts. -/
def toRecipientCmd (addr : Str) : Str :=
  str "make new to recipient at end of to recipients with properties \x7baddress:\"" ++
    escapeForAppleScript addr ++ str "\"\x7d\n"

/-- One `cc` recipient line of the send/draft scripts. -/
def ccRecipientCmd (addr : Str) : Str :=
  str "make new cc recipient at end of cc recipients with properties \x7baddress:\"" ++
    escapeForAppleScript addr ++ str "\"\x7d\n"

/-- One `bcc` recipient line of the send/draft scripts. -/
def bccRecipientCmd (addr : Str) : Str :=
  str "make new bcc recipient at end of bcc recipients with properties \x7baddress:\"" ++
    escapeForAppleScript addr ++ str "\"\x7d\n"

/-- The accumulated recipient lines of `sendEmail` (`cc`/`bcc` loops run
only when the arrays are present). -/
def recipientCommands (toAddrs : List Str) (cc bcc : Option (List Str)) : Str :=
  (toAddrs.map toRecipientCmd).flatten ++
    (match cc with
     | some l => (l.map ccRecipientCmd).flatten
     | none => []) ++
    (match bcc with
     | some l => (l.map bccRecipientCmd).flatten
     | none => [])

/-- The send command of `sendEmail`, with the `set sender` line present
only for a truthy account. -/
def sendCommandFor (safeSubject safeBody recipientCmds : Str)
    (account : Option Str) : Str :=
  if truthy account then
    str "\n        set newMessage to make new outgoing message with properties \x7bsubject:\"" ++
      safeSubject ++ str "\", content:\"" ++ safeBody ++
      str "\", visible:true\x7d\n        tell newMessage\n          " ++
      recipientCmds ++ str "\n          set sender to \"" ++
      escapeForAppleScript (account.getD []) ++
      str "\"\n        end tell\n        send newMessage\n        return \"sent\"\n      "
  else
    str "\n        set newMessage to make new outgoing message with properties \x7bsubject:\"" ++
      safeSubject ++ str "\", content:\"" ++ safeBody ++
      str "\", visible:true\x7d\n        tell newMessage\n          " ++
      recipientCmds ++
      str "\n        end tell\n        send newMessage\n        return \"sent\"\n      "

/-- `sendEmail`: build and run the send script; false on external
failure, otherwise true exactly when the output contains the script's
`sent` marker. -/
def sendEmail (env : JsEnv) (toAddrs : List Str) (subject body : Str)
    (cc bcc : Option (List Str)) (account : Option Str) : Bool :=
  let script := buildAppLevelScript
    (sendCommandFor (escapeForAppleScript subject) (escapeForAppleScript body)
      (recipientCommands toAddrs cc bcc) account)
  let result := env.run script
  if !result.success then false
  else includesSub result.output (str "sent")

/-- `findMessageScript`: the all-accounts scan wrapper shared by the
id-based operations, returning `ok`, `error:Message not found`, or
`error:` plus the caught message. -/
def findMessageScript (id operation : Str) : Str :=
  buildAppLevelScript
    (str "\n      try\n        repeat with acct in accounts\n          repeat with mb in mailboxes of acct\n            try\n              set matchingMsgs to (messages of mb whose id is " ++
      id ++
      str ")\n              if (count of matchingMsgs) > 0 then\n                set msg to item 1 of matchingMsgs\n                " ++
      operation ++
      str "\n                return \"ok\"\n              end if\n            end try\n          end repeat\n        end repeat\n        return \"error:Message not found\"\n      on error errMsg\n        return \"error:\" & errMsg\n      end try\n    ")

/-- `markAsRead`. -/
def markAsRead (env : JsEnv) (id : Str) : Bool :=
  let result := env.run (findMessageScript id (str "set read status of msg to true"))
  if !result.success || beginsWith result.output (str "error:") then false
  else true

/-- `markAsUnread`. -/
def markAsUnread (env : JsEnv) (id : Str) : Bool :=
  let result := env.run (findMessageScript id (str "set read status of msg to false"))
  if !result.success || beginsWith result.output (str "error:") then false
  else true

/-- `flagMessage`. -/
def flagMessage (env : JsEnv) (id : Str) : Bool :=
  let result := env.run (findMessageScript id (str "set flagged status of msg to true"))
  if !result.success || beginsWith result.output (str "error:") then false
  else true

/-- `unflagMessage`. -/
def unflagMessage (env : JsEnv) (id : Str) : Bool :=
  let result := env.run (findMessageScript id (str "set flagged status of msg to false"))
  if !result.success || beginsWith result.output (str "error:") then false
  else true

/-- `deleteMessage`. -/
def deleteMessage (env : JsEnv) (id : Str) : Bool :=
  let result := env.run (findMessageScript id (str "delete msg"))
  if !result.success || beginsWith result.output (str "error:") then false
  else true

/-- The reply script of `replyToMessage`. -/
def replyToMessageScript (id safeBody replyAllClause sendAction : Str) : Str :=
  buildAppLevelScript
    (str "\n      try\n        repeat with acct in accounts\n          repeat with mb in mailboxes of acct\n            try\n              set matchingMsgs to (messages of mb whose id is " ++
      id ++
      str ")\n              if (count of matchingMsgs) > 0 then\n                set msg to item 1 of matchingMsgs\n                set theReply to reply msg with opening window" ++
      replyAllClause ++
      str "\n                set content of theReply to \"" ++ safeBody ++
      str "\" & return & return & content of theReply\n                " ++
      sendAction ++
      str "\n                return \"ok\"\n              end if\n            end try\n          end repeat\n        end repeat\n        return \"error:Message not found\"\n      on error errMsg\n        return \"error:\" & errMsg\n      end try\n    ")

/-- `replyToMessage`. -/
def replyToMessage (env : JsEnv) (id body : Str) (replyAll send : Bool) : Bool :=
  let script := replyToMessageScript id (escapeForAppleScript body)
    (if replyAll then str " with reply to all" else [])
    (if send then str "send theReply" else [])
  let result := env.run script
  if !result.success || beginsWith result.output (str "error:") then false
  else true

/-- One recipient line of the forward script. -/
def forwardRecipientCmd (addr : Str) : Str :=
  str "make new to recipient at end of to recipients of theForward with properties \x7baddress:\"" ++
    escapeForAppleScript addr ++ str "\"\x7d\n"

/-- The forward script of `forwardMessage` (the body-prepend line is
present only for a truthy body). -/
def forwardMessageScript (id safeBody recipientCmds sendAction : Str) : Str :=
  buildAppLevelScript
    (str "\n      try\n        repeat with acct in accounts\n          repeat with mb in mailboxes of acct\n            try\n              set matchingMsgs to (messages of mb whose id is " ++
      id ++
      str ")\n              if (count of matchingMsgs) > 0 then\n                set msg to item 1 of matchingMsgs\n                set theForward to forward msg with opening window\n                " ++
      recipientCmds ++ str "\n                " ++
      (if safeBody.isEmpty then []
       else str "set content of theForward to \"" ++ safeBody ++
         str "\" & return & return & content of theForward") ++
      str "\n                " ++ sendAction ++
      str "\n                return \"ok\"\n              end if\n            end try\n          end repeat\n        end repeat\n        return \"error:Message not found\"\n      on error errMsg\n        return \"error:\" & errMsg\n      end try\n    ")

/-- `forwardMessage`. -/
def forwardMessage (env : JsEnv) (id : Str) (toAddrs : List Str)
    (body : Option Str) (send : Bool) : Bool :=
  let safeBody := if truthy body then escapeForAppleScript (body.getD []) else []
  let script := forwardMessageScript id safeBody
    ((toAddrs.map forwardRecipientCmd).flatten)
    (if send then str "send theForward" else [])
  let result := env.run script
  if !result.success || beginsWith result.output (str "error:") then false
  else true

/-- The move script of `moveMessage`. -/
def moveMessageScript (id safeMailbox safeAccount : Str) : Str :=
  buildAppLevelScript
    (str "\n      try\n        repeat with acct in accounts\n          repeat with mb in mailboxes of acct\n            try\n              set matchingMsgs to (messages of mb whose id is " ++
      id ++
      str ")\n              if (count of matchingMsgs) > 0 then\n                set msg to item 1 of matchingMsgs\n                set destMailbox to mailbox \"" ++
      safeMailbox ++ str "\" of account \"" ++ safeAccount ++
      str "\"\n                move msg to destMailbox\n                return \"ok\"\n              end if\n            end try\n          end repeat\n        end repeat\n        return \"error:Message not found\"\n      on error errMsg\n        return \"error:\" & errMsg\n      end try\n    ")

/-- `moveMessage`: resolve destination names, run the move script;
threads the `defaultAccount` state. -/
def moveMessage (env : JsEnv) (st : Option Str) (id mailbox : Str)
    (account : Option Str) : Bool × Option Str :=
  let res := resolveAccount env st account
  let targetMailbox := resolveMailbox env mailbox res.1
  let result := env.run (moveMessageScript id
    (escapeForAppleScript targetMailbox) (escapeForAppleScript res.1))
  (if !result.success || beginsWith result.output (str "error:") then false
   else true, res.2)

/-- Per-item result of a batch operation (`BatchOperationResult` in
`types.ts`). -/
structure BatchOperationResult where
  id : Str
  success : Bool
  error : Option Str
deriving DecidableEq, Inhabited

/-- `batchDeleteMessages`: iterate `deleteMessage` and collect one result
record per id. -/
def batchDeleteMessages (env : JsEnv) : List Str → List BatchOperationResult
  | [] => []
  | id :: rest =>
    let success := deleteMessage env id
    { id := id, success := success,
      error := if success then none else some (str "Failed to delete message") } ::
      batchDeleteMessages env rest

/-- `batchMarkAsRead`: iterate `markAsRead` and collect one result record
per id. -/
def batchMarkAsRead (env : JsEnv) : List Str → List BatchOperationResult
  | [] => []
  | id :: rest =>
    let success := markAsRead env id
    { id := id, success := success,
      error := if success then none
        else some (str "Failed to mark message as read") } ::
      batchMarkAsRead env rest

/-- `batchMoveMessages`: iterate `moveMessage` (threading the
`defaultAccount` state) and collect one result record per id. -/
def batchMoveMessages (env : JsEnv) (st : Option Str) (ids : List Str)
    (mailbox : Str) (account : Option Str) :
    List BatchOperationResult × Option Str :=
  match ids with
  | [] => ([], st)
  | id :: rest =>
    let r := moveMessage env st id mailbox account
    let tail := batchMoveMessages env r.2 rest mailbox account
    ({ id := id, success := r.1,
       error := if r.1 then none else some (str "Failed to move message") } ::
       tail.1, tail.2)

/-- Optional-chaining `error?.includes(pat)` coerced to a boolean
(an absent error is falsy). -/
def optIncludes (o : Option Str) (pat : Str) : Bool :=
  match o with
  | some s => includesSub s pat
  | none => false

/-- Template-literal rendering `${o}` of an optional string (an absent
value renders as the text `undefined`). -/
def optRender (o : Option Str) : Str :=
  match o with
  | some s => s
  | none => str "undefined"

/-- One probe entry of the health check (`HealthCheckItem` in
`types.ts`). -/
structure HealthCheckItem where
  name : Str
  passed : Bool
  message : Str
deriving DecidableEq, Inhabited

/-- Health check result (`HealthCheckResult` in `types.ts`). -/
structure HealthCheckResult where
  healthy : Bool
  checks : List HealthCheckItem
deriving DecidableEq, Inhabited

/-- Probe 1 script of `healthCheck` (application reachability). -/
def mailAppCheckScript : Str := str "tell application \"Mail\" to return \"ok\""

/-- Probe 2 script of `healthCheck` (automation permission). -/
def permCheckScript : Str :=
  str "tell application \"Mail\" to get name of account 1"

/-- Steps 3 and 4 of `healthCheck` (account presence, then the basic
listing probe whose entry is recorded as passed unconditionally), reached
only after the first two probes did not short-circuit. -/
def healthCheckRest (env : JsEnv) (st : Option Str)
    (c1 c2 : HealthCheckItem) : HealthCheckResult × Option Str :=
  let accounts := listAccounts env
  if accounts.isEmpty then
    (⟨false, [c1, c2, ⟨str "accounts", false,
      str "No Mail accounts found. Set up an account in Mail.app first."⟩]⟩, st)
  else
    let first := accounts.headD default
    let c3 : HealthCheckItem := ⟨str "accounts", true,
      str "Found " ++ natStr accounts.length ++ str " account(s): " ++
        List.intercalate (str ", ") (accounts.map Account.name)⟩
    let mbRes := listMailboxes env st (some first.name)
    let c4 : HealthCheckItem := ⟨str "operations", true,
      str "Basic operations working (" ++ natStr mbRes.1.length ++
        str " mailbox(es) in " ++ first.name ++ str ")"⟩
    let checks := [c1, c2, c3, c4]
    (⟨checks.all HealthCheckItem.passed, checks⟩, mbRes.2)

/-- `healthCheck`: the four ordered probes with the early unhealthy
returns of the source (probe 1 failure; probe 2 failure when it is a
permission error). -/
def healthCheck (env : JsEnv) (st : Option Str) :
    HealthCheckResult × Option Str :=
  let mailCheck := env.run mailAppCheckScript
  if mailCheck.success && (mailCheck.output == str "ok") then
    let c1 : HealthCheckItem := ⟨str "mail_app", true, str "Mail.app is accessible"⟩
    let permCheck := env.run permCheckScript
    if permCheck.success then
      healthCheckRest env st c1
        ⟨str "permissions", true, str "AppleScript automation permissions granted"⟩
    else
      let isPermError := optIncludes permCheck.error (str "not authorized") ||
        optIncludes permCheck.error (str "not permitted")
      let c2 : HealthCheckItem := ⟨str "permissions", !isPermError,
        if isPermError then
          str "AppleScript permissions denied. Grant access in System Preferences > Privacy & Security > Automation"
        else str "Permission check returned: " ++ optRender permCheck.error⟩
      if isPermError then (⟨false, [c1, c2]⟩, st)
      else healthCheckRest env st c1 c2
  else
    let errorHint :=
      if optIncludes mailCheck.error (str "not authorized") then
        str " (check Automation permissions in System Preferences)"
      else []
    (⟨false, [⟨str "mail_app", false,
      str "Mail.app is not accessible" ++ errorHint⟩]⟩, st)

/-- The uniform outcome rule the id-based façade operations implement:
external success and output not starting with the lowercase sentinel
`error:`. -/
def okOutcome (r : AppleScriptResult) : Bool :=
  r.success && !beginsWith r.output (str "error:")

theorem ite_okOutcome (r : AppleScriptResult) :
    (if !r.success || beginsWith r.output (str "error:") then false else true) =
      okOutcome r := by
  unfold okOutcome
  cases h1 : r.success <;> cases h2 : beginsWith r.output (str "error:") <;>
    simp [h1, h2]

/-- The sentinel convention as the specification words it, for comparison
against the code: an `error:` or `ERROR:` output tag. -/
def claimedSentinel (output : Str) : Bool :=
  beginsWith output (str "error:") || beginsWith output (str "ERROR:")

/-- Environment for the C2 counterexample: every external call reports
success with output `ERROR:boom`. -/
def envC2 : JsEnv :=
  { run := fun _ => ⟨true, str "ERROR:boom", none⟩,
    dateParse := fun _ => none, now := 0 }

/-- C2 counterexample: an execution result that succeeds with output
`ERROR:boom` carries the sentinel prefix as the claim words it
(`error:` / `ERROR:`), yet `markAsRead` returns true, because the code
checks only the case-sensitive lowercase `error:`; and under the same
result `sendEmail` returns false despite successful execution, because
it additionally requires the `sent` marker in the output. -/
theorem facade_sentinel_cex :
    (envC2.run (findMessageScript (str "1")
      (str "set read status of msg to true"))).success = true ∧
    claimedSentinel (envC2.run (findMessageScript (str "1")
      (str "set read status of msg to true"))).output = true ∧
    markAsRead envC2 (str "1") = true ∧
    sendEmail envC2 [str "a@x.com"] (str "S") (str "B") none none none = false := by
  refine ⟨rfl, by decide, by decide, by decide⟩

/-- C2 (amended): for every external execution result, each id-based
façade operation (reply, forward, mark read/unread, flag, unflag,
delete, move) returns, without throwing, exactly the uniform outcome:
true when the execution succeeds and its output does not start with the
case-sensitive lowercase sentinel `error:`, false otherwise; `sendEmail`
returns true exactly when execution succeeds and its output contains the
`sent` marker that the generated script emits, hence false and no
exception on external failure. -/
theorem facade_outcomes (env : JsEnv) (st : Option Str)
    (id body mailbox subject : Str) (toAddrs : List Str)
    (cc bcc : Option (List Str)) (account bodyOpt : Option Str)
    (replyAll send : Bool) :
    markAsRead env id =
      okOutcome (env.run (findMessageScript id
        (str "set read status of msg to true"))) ∧
    markAsUnread env id =
      okOutcome (env.run (findMessageScript id
        (str "set read status of msg to false"))) ∧
    flagMessage env id =
      okOutcome (env.run (findMessageScript id
        (str "set flagged status of msg to true"))) ∧
    unflagMessage env id =
      okOutcome (env.run (findMessageScript id
        (str "set flagged status of msg to false"))) ∧
    deleteMessage env id =
      okOutcome (env.run (findMessageScript id (str "delete msg"))) ∧
    replyToMessage env id body replyAll send =
      okOutcome (env.run (replyToMessageScript id (escapeForAppleScript body)
        (if replyAll then str " with reply to all" else [])
        (if send then str "send theReply" else []))) ∧
    forwardMessage env id toAddrs bodyOpt send =
      okOutcome (env.run (forwardMessageScript id
        (if truthy bodyOpt then escapeForAppleScript (bodyOpt.getD []) else [])
        ((toAddrs.map forwardRecipientCmd).flatten)
        (if send then str "send theForward" else []))) ∧
    (moveMessage env st id mailbox account).1 =
      okOutcome (env.run (moveMessageScript id
        (escapeForAppleScript
          (resolveMailbox env mailbox (resolveAccount env st account).1))
        (escapeForAppleScript (resolveAccount env st account).1))) ∧
    sendEmail env toAddrs subject body cc bcc account =
      ((env.run (buildAppLevelScript (sendCommandFor
          (escapeForAppleScript subject) (escapeForAppleScript body)
          (recipientCommands toAddrs cc bcc) account))).success &&
        includesSub (env.run (buildAppLevelScript (sendCommandFor
          (escapeForAppleScript subject) (escapeForAppleScript body)
          (recipientCommands toAddrs cc bcc) account))).output (str "sent")) := by
  refine ⟨?_, ?_, ?_, ?_, ?_, ?_, ?_, ?_, ?_⟩
  · simp only [markAsRead]; exact ite_okOutcome _
  · simp only [markAsUnread]; exact ite_okOutcome _
  · simp only [flagMessage]; exact ite_okOutcome _
  · simp only [unflagMessage]; exact ite_okOutcome _
  · simp only [deleteMessage]; exact ite_okOutcome _
  · simp only [replyToMessage]; exact ite_okOutcome _
  · simp only [forwardMessage]; exact ite_okOutcome _
  · simp only [moveMessage]; exact ite_okOutcome _
  · simp only [sendEmail]
    cases h : (env.run (buildAppLevelScript (sendCommandFor
        (escapeForAppleScript subject) (escapeForAppleScript body)
        (recipientCommands toAddrs cc bcc) account))).success <;>
      simp [h]

theorem resolveAccount_iter (env : JsEnv) (st : Option Str) (y : Option Str) :
    resolveAccount env (resolveAccount env st y).2 y = resolveAccount env st y := by
  by_cases hy : truthy y = true
  · simp [resolveAccount, hy]
  · rw [Bool.not_eq_true] at hy
    by_cases hst : truthy st = true
    · simp [resolveAccount, hy, hst]
    · rw [Bool.not_eq_true] at hst
      cases hacc : listAccounts env with
      | nil => simp [resolveAccount, hy, hst, hacc]
      | cons a as =>
        by_cases han : truthy (some a.name) = true
        · simp [resolveAccount, hy, hst, hacc, han]
        · rw [Bool.not_eq_true] at han
          simp [resolveAccount, hy, hst, hacc, han]

theorem moveMessage_state_congr (env : JsEnv) (st st' : Option Str)
    (id mb : Str) (y : Option Str)
    (h : resolveAccount env st y = resolveAccount env st' y) :
    moveMessage env st id mb y = moveMessage env st' id mb y := by
  simp only [moveMessage, h]

theorem batchDeleteMessages_eq_map (env : JsEnv) (ids : List Str) :
    batchDeleteMessages env ids = ids.map fun id =>
      { id := id, success := deleteMessage env id,
        error := if deleteMessage env id then none
          else some (str "Failed to delete message") } := by
  induction ids with
  | nil => rfl
  | cons id rest ih => simp [batchDeleteMessages, ih]

theorem batchMarkAsRead_eq_map (env : JsEnv) (ids : List Str) :
    batchMarkAsRead env ids = ids.map fun id =>
      { id := id, success := markAsRead env id,
        error := if markAsRead env id then none
          else some (str "Failed to mark message as read") } := by
  induction ids with
  | nil => rfl
  | cons id rest ih => simp [batchMarkAsRead, ih]

theorem batchMoveMessages_fst_eq_map (env : JsEnv) (st : Option Str)
    (ids : List Str) (mb : Str) (y : Option Str) :
    (batchMoveMessages env st ids mb y).1 = ids.map fun id =>
      { id := id, success := (moveMessage env st id mb y).1,
        error := if (moveMessage env st id mb y).1 then none
          else some (str "Failed to move message") } := by
  induction ids generalizing st with
  | nil => rfl
  | cons id rest ih =>
    have key : ∀ id', moveMessage env (moveMessage env st id mb y).2 id' mb y =
        moveMessage env st id' mb y := fun id' =>
      moveMessage_state_congr env _ st id' mb y (resolveAccount_iter env st y)
    simp only [batchMoveMessages, List.map_cons, ih, key]

theorem getD_map_lt {α β : Type} (f : α → β) (l : List α) (i : Nat)
    (h : i < l.length) (d : β) (d' : α) :
    (l.map f).getD i d = f (l.getD i d') := by
  induction l generalizing i with
  | nil => simp at h
  | cons x xs ih =>
    cases i with
    | zero => rfl
    | succ j =>
      simp only [List.map_cons, List.getD_cons_succ]
      exact ih j (by simpa using h)

/-- C4: each batch operation returns one result record per input id, in
input order; record `i` carries id `i`, a success flag equal to the
outcome of the corresponding single-item operation on id `i` alone (from
the same starting state), and an error string exactly when that
single-item operation failed; no record depends on any other item. -/
theorem batch_results_spec (env : JsEnv) (st : Option Str) (ids : List Str)
    (mailbox : Str) (account : Option Str) (i : Nat) (h : i < ids.length) :
    (batchDeleteMessages env ids).length = ids.length ∧
    (batchMarkAsRead env ids).length = ids.length ∧
    (batchMoveMessages env st ids mailbox account).1.length = ids.length ∧
    ((batchDeleteMessages env ids).getD i default).id = ids.getD i [] ∧
    ((batchDeleteMessages env ids).getD i default).success =
      deleteMessage env (ids.getD i []) ∧
    (((batchDeleteMessages env ids).getD i default).error = none ↔
      deleteMessage env (ids.getD i []) = true) ∧
    ((batchMarkAsRead env ids).getD i default).id = ids.getD i [] ∧
    ((batchMarkAsRead env ids).getD i default).success =
      markAsRead env (ids.getD i []) ∧
    (((batchMarkAsRead env ids).getD i default).error = none ↔
      markAsRead env (ids.getD i []) = true) ∧
    (((batchMoveMessages env st ids mailbox account).1.getD i default).id =
      ids.getD i []) ∧
    (((batchMoveMessages env st ids mailbox account).1.getD i default).success =
      (moveMessage env st (ids.getD i []) mailbox account).1) ∧
    (((batchMoveMessages env st ids mailbox account).1.getD i default).error = none ↔
      (moveMessage env st (ids.getD i []) mailbox account).1 = true) := by
  rw [batchDeleteMessages_eq_map, batchMarkAsRead_eq_map,
    batchMoveMessages_fst_eq_map]
  rw [getD_map_lt _ _ _ h _ [], getD_map_lt _ _ _ h _ [], getD_map_lt _ _ _ h _ []]
  refine ⟨by simp, by simp, by simp, rfl, rfl, ?_, rfl, rfl, ?_, rfl, rfl, ?_⟩
  · cases hb : deleteMessage env (ids.getD i []) <;> simp [hb]
  · cases hb : markAsRead env (ids.getD i []) <;> simp [hb]
  · cases hb : (moveMessage env st (ids.getD i []) mailbox account).1 <;> simp [hb]

/-- Environment for the C4 witness: every external call succeeds with
output `ok`, so every single-item operation succeeds. -/
def envC4 : JsEnv :=
  { run := fun _ => ⟨true, str "ok", none⟩, dateParse := fun _ => none, now := 0 }

/-- Witness for C4 on the two-element id list `["1", "2"]` at index 0. -/
theorem batch_results_spec_wit :
    (0 < [str "1", str "2"].length) ∧
    (batchDeleteMessages envC4 [str "1", str "2"]).length = 2 ∧
    ((batchDeleteMessages envC4 [str "1", str "2"]).getD 0 default).id = str "1" :=
  ⟨by decide,
    (batch_results_spec envC4 none [str "1", str "2"] (str "INBOX") none 0
      (by decide)).1,
    (batch_results_spec envC4 none [str "1", str "2"] (str "INBOX") none 0
      (by decide)).2.2.2.1⟩

/-- C8: `resolveAccount` returns a requested (non-empty) name unchanged
with no external query and no state change; with no request it returns a
previously cached default without a further external query; with no
cache it returns and caches the first listed account's name; and it
returns the hardcoded `iCloud` fallback when no account is found.  The
cached default is never invalidated: re-resolving from the state a
resolution produced yields the identical result. -/
theorem resolveAccount_spec (env env2 : JsEnv) (st : Option Str) (a d : Str)
    (acct : Option Str) :
    (a ≠ [] → resolveAccount env st (some a) = (a, st)) ∧
    (a ≠ [] → resolveAccount env st (some a) = resolveAccount env2 st (some a)) ∧
    (d ≠ [] → resolveAccount env (some d) none = (d, some d)) ∧
    (d ≠ [] → resolveAccount env (some d) none = resolveAccount env2 (some d) none) ∧
    (∀ x xs, listAccounts env = x :: xs →
      resolveAccount env none none = (x.name, some x.name)) ∧
    (listAccounts env = [] → resolveAccount env none none = (str "iCloud", none)) ∧
    resolveAccount env (resolveAccount env st acct).2 acct =
      resolveAccount env st acct := by
  have ha : ∀ (e : JsEnv) (s : Option Str), a ≠ [] →
      resolveAccount e s (some a) = (a, s) := by
    intro e s h
    have ht : truthy (some a) = true := by
      simp [truthy, List.isEmpty_iff, h]
    simp [resolveAccount, ht]
  have hd : ∀ (e : JsEnv), d ≠ [] →
      resolveAccount e (some d) none = (d, some d) := by
    intro e h
    have ht : truthy (some d) = true := by
      simp [truthy, List.isEmpty_iff, h]
    have hn : truthy (none : Option Str) = false := rfl
    simp [resolveAccount, ht, hn]
  refine ⟨fun h => ha env st h, fun h => (ha env st h).trans (ha env2 st h).symm,
    fun h => hd env h, fun h => (hd env h).trans (hd env2 h).symm,
    ?_, ?_, resolveAccount_iter env st acct⟩
  · intro x xs hacc
    have hn : truthy (none : Option Str) = false := rfl
    simp [resolveAccount, hn, hacc]
  · intro hacc
    have hn : truthy (none : Option Str) = false := rfl
    simp [resolveAccount, hn, hacc]

/-- Environment for the C8 witness: the account listing reports one
account named `Work`. -/
def envC8 : JsEnv :=
  { run := fun _ => ⟨true, str "Work|||w@x.com|||true", none⟩,
    dateParse := fun _ => none, now := 0 }

/-- Witness for C8 at the account name `Work` and a cached default
`Main`. -/
theorem resolveAccount_spec_wit :
    (str "Work" ≠ [] ∧ str "Main" ≠ []) ∧
    resolveAccount envC8 none (some (str "Work")) = (str "Work", none) ∧
    resolveAccount envC8 (some (str "Main")) none = (str "Main", some (str "Main")) ∧
    resolveAccount envC8 none none = (str "Work", some (str "Work")) :=
  ⟨⟨by decide, by decide⟩,
    (resolveAccount_spec envC8 envC8 none (str "Work") (str "Main") none).1
      (by decide),
    (resolveAccount_spec envC8 envC8 none (str "Work") (str "Main") none).2.2.1
      (by decide),
    (resolveAccount_spec envC8 envC8 none (str "Work") (str "Main")
      none).2.2.2.2.1 ⟨str "Work", str "w@x.com", true⟩ [] (by decide)⟩

/-- The parsed live mailbox list `resolveMailbox` matches against. -/
def fetchedMailboxes (env : JsEnv) (account : Str) : List Str :=
  parseMailboxNames (env.run (mailboxListScript account)).output

theorem resolveMailboxIn_mem (mailbox : Str) (l : List Str) (h : mailbox ∈ l) :
    resolveMailboxIn mailbox l = mailbox := by
  simp [resolveMailboxIn, List.contains, List.elem_eq_mem, h]

theorem resolveMailboxIn_ciMatch (mailbox : Str) (l : List Str) (m : Str)
    (h1 : mailbox ∉ l)
    (h2 : l.find? (fun mb => toLowerStr mb == toLowerStr mailbox) = some m) :
    resolveMailboxIn mailbox l = m := by
  simp [resolveMailboxIn, h1, h2]

theorem resolveMailboxIn_aliasStep (mailbox : Str) (l : List Str)
    (h1 : mailbox ∉ l)
    (h2 : l.find? (fun mb => toLowerStr mb == toLowerStr mailbox) = none) :
    resolveMailboxIn mailbox l =
      aliasScan mailbox l ((MAILBOX_ALIASES (toLowerStr mailbox)).getD []) := by
  cases hal : MAILBOX_ALIASES (toLowerStr mailbox) with
  | some aliases => simp [resolveMailboxIn, h1, h2, hal]
  | none => simp [resolveMailboxIn, h1, h2, hal, aliasScan]

theorem aliasScan_head_exact (mailbox a : Str) (l rest : List Str) (h : a ∈ l) :
    aliasScan mailbox l (a :: rest) = a := by
  simp [aliasScan, List.contains, List.elem_eq_mem, h]

theorem aliasScan_head_ci (mailbox a m : Str) (l rest : List Str)
    (h1 : a ∉ l)
    (h2 : l.find? (fun mb => toLowerStr mb == toLowerStr a) = some m) :
    aliasScan mailbox l (a :: rest) = m := by
  simp [aliasScan, h1, h2]

theorem aliasScan_nomatch (mailbox : Str) (l : List Str) (aliases : List Str)
    (h : ∀ a ∈ aliases, a ∉ l ∧
      l.find? (fun mb => toLowerStr mb == toLowerStr a) = none) :
    aliasScan mailbox l aliases = mailbox := by
  induction aliases with
  | nil => rfl
  | cons a rest ih =>
    obtain ⟨hna, hfa⟩ := h a (by simp)
    have hc : l.contains a = false := by
      simp [List.contains, List.elem_eq_mem, hna]
    simp only [aliasScan, hc, hfa, Bool.false_eq_true, if_false]
    exact ih fun a' ha' => h a' (by simp [ha'])

theorem aliasScan_append_nomatch (mailbox : Str) (l pre rest : List Str)
    (h : ∀ a ∈ pre, a ∉ l ∧
      l.find? (fun mb => toLowerStr mb == toLowerStr a) = none) :
    aliasScan mailbox l (pre ++ rest) = aliasScan mailbox l rest := by
  induction pre with
  | nil => rfl
  | cons a pre' ih =>
    obtain ⟨hna, hfa⟩ := h a (by simp)
    have hc : l.contains a = false := by
      simp [List.contains, List.elem_eq_mem, hna]
    simp only [List.cons_append, aliasScan, hc, hfa, Bool.false_eq_true, if_false]
    exact ih fun a' ha' => h a' (by simp [ha'])

theorem resolveMailbox_fetch_ok (env : JsEnv) (mailbox account : Str)
    (hs : (env.run (mailboxListScript account)).success = true)
    (ho : (env.run (mailboxListScript account)).output ≠ []) :
    resolveMailbox env mailbox account =
      resolveMailboxIn mailbox (fetchedMailboxes env account) := by
  have hoe : (env.run (mailboxListScript account)).output.isEmpty = false := by
    simp [List.isEmpty_iff, ho]
  simp [resolveMailbox, fetchedMailboxes, hs, hoe]

theorem resolveMailboxIn_inbox (l : List Str)
    (h : ∃ m ∈ l, toLowerStr m = str "inbox") :
    resolveMailboxIn (str "inbox") l ∈ l := by
  by_cases hm : str "inbox" ∈ l
  · rw [resolveMailboxIn_mem _ _ hm]; exact hm
  · have hlow : toLowerStr (str "inbox") = str "inbox" := by decide
    have hsome :
        (l.find? fun mb => toLowerStr mb == toLowerStr (str "inbox")).isSome := by
      rw [List.find?_isSome]
      obtain ⟨m, hml, hl⟩ := h
      exact ⟨m, hml, by simp [hlow, hl]⟩
    obtain ⟨m, hfind⟩ := Option.isSome_iff_exists.mp hsome
    rw [resolveMailboxIn_ciMatch _ _ _ hm hfind]
    exact List.mem_of_find?_eq_some hfind

/-- C3: `resolveMailbox` follows the ordered first-match-wins algorithm
over the live mailbox list fetched from the external store: exact match
returns the requested name; otherwise the first case-insensitive match is
returned; otherwise the aliases of the lowercased requested name are
scanned in order, each tried exact first and case-insensitively second —
for any decomposition of the alias list into earlier aliases that all
fail (no exact and no case-insensitive match) followed by an alias that
matches, that alias's match is returned; otherwise the requested name is
returned unchanged.  In particular, whenever a case-insensitive or alias
variant of `inbox` is present in the fetched list, the resolved name for
a requested `inbox` is present in that list. -/
theorem resolveMailbox_resolution (env : JsEnv) (mailbox account : Str)
    (hs : (env.run (mailboxListScript account)).success = true)
    (ho : (env.run (mailboxListScript account)).output ≠ []) :
    (mailbox ∈ fetchedMailboxes env account →
      resolveMailbox env mailbox account = mailbox) ∧
    (mailbox ∉ fetchedMailboxes env account →
      ∀ m, (fetchedMailboxes env account).find?
          (fun mb => toLowerStr mb == toLowerStr mailbox) = some m →
        resolveMailbox env mailbox account = m ∧
          m ∈ fetchedMailboxes env account) ∧
    (mailbox ∉ fetchedMailboxes env account →
      (fetchedMailboxes env account).find?
          (fun mb => toLowerStr mb == toLowerStr mailbox) = none →
      ∀ pre a rest,
        MAILBOX_ALIASES (toLowerStr mailbox) = some (pre ++ a :: rest) →
        (∀ b ∈ pre, b ∉ fetchedMailboxes env account ∧
          (fetchedMailboxes env account).find?
            (fun mb => toLowerStr mb == toLowerStr b) = none) →
        a ∈ fetchedMailboxes env account →
        resolveMailbox env mailbox account = a) ∧
    (mailbox ∉ fetchedMailboxes env account →
      (fetchedMailboxes env account).find?
          (fun mb => toLowerStr mb == toLowerStr mailbox) = none →
      ∀ pre a rest m,
        MAILBOX_ALIASES (toLowerStr mailbox) = some (pre ++ a :: rest) →
        (∀ b ∈ pre, b ∉ fetchedMailboxes env account ∧
          (fetchedMailboxes env account).find?
            (fun mb => toLowerStr mb == toLowerStr b) = none) →
        a ∉ fetchedMailboxes env account →
        (fetchedMailboxes env account).find?
            (fun mb => toLowerStr mb == toLowerStr a) = some m →
        resolveMailbox env mailbox account = m ∧
          m ∈ fetchedMailboxes env account) ∧
    (mailbox ∉ fetchedMailboxes env account →
      (fetchedMailboxes env account).find?
          (fun mb => toLowerStr mb == toLowerStr mailbox) = none →
      (∀ a ∈ (MAILBOX_ALIASES (toLowerStr mailbox)).getD [],
        a ∉ fetchedMailboxes env account ∧
          (fetchedMailboxes env account).find?
            (fun mb => toLowerStr mb == toLowerStr a) = none) →
      resolveMailbox env mailbox account = mailbox) ∧
    ((∃ m ∈ fetchedMailboxes env account, toLowerStr m = str "inbox" ∨
        m ∈ [str "INBOX", str "Inbox", str "inbox"]) →
      resolveMailbox env (str "inbox") account ∈ fetchedMailboxes env account) := by
  have hfe : ∀ mb, resolveMailbox env mb account =
      resolveMailboxIn mb (fetchedMailboxes env account) := fun mb =>
    resolveMailbox_fetch_ok env mb account hs ho
  refine ⟨?_, ?_, ?_, ?_, ?_, ?_⟩
  · intro h
    rw [hfe]; exact resolveMailboxIn_mem _ _ h
  · intro h1 m h2
    rw [hfe]
    exact ⟨resolveMailboxIn_ciMatch _ _ _ h1 h2, List.mem_of_find?_eq_some h2⟩
  · intro h1 h2 pre a rest hal hpre ha
    rw [hfe, resolveMailboxIn_aliasStep _ _ h1 h2, hal, Option.getD_some,
      aliasScan_append_nomatch _ _ _ _ hpre]
    exact aliasScan_head_exact _ _ _ _ ha
  · intro h1 h2 pre a rest m hal hpre ha hm
    rw [hfe, resolveMailboxIn_aliasStep _ _ h1 h2, hal, Option.getD_some,
      aliasScan_append_nomatch _ _ _ _ hpre]
    exact ⟨aliasScan_head_ci _ _ _ _ _ ha hm, List.mem_of_find?_eq_some hm⟩
  · intro h1 h2 h3
    rw [hfe, resolveMailboxIn_aliasStep _ _ h1 h2]
    exact aliasScan_nomatch _ _ _ h3
  · intro h
    rw [hfe]
    apply resolveMailboxIn_inbox
    obtain ⟨m, hml, hcase⟩ := h
    refine ⟨m, hml, ?_⟩
    rcases hcase with hlow | hmem
    · exact hlow
    · have hm3 : m = str "INBOX" ∨ m = str "Inbox" ∨ m = str "inbox" := by
        simpa using hmem
      rcases hm3 with h | h | h <;> (subst h; decide)

/-- Environment for the C3 witness: the fetched mailbox list is
`Inbox, Sent`. -/
def envC3 : JsEnv :=
  { run := fun _ => ⟨true, str "Inbox, Sent", none⟩,
    dateParse := fun _ => none, now := 0 }

/-- Second environment for the C3 witness: the fetched mailbox list is
`Sent Items` only, so for a requested `sent` the first alias `Sent`
fails and the second alias `Sent Items` matches exactly. -/
def envC3b : JsEnv :=
  { run := fun _ => ⟨true, str "Sent Items", none⟩,
    dateParse := fun _ => none, now := 0 }

/-- Witness for C3: with the fetched list `["Inbox", "Sent"]`, resolving
`inbox` returns a member of the fetched list; and with the fetched list
`["Sent Items"]`, resolving `sent` returns `Sent Items`, the first
matching alias after the failing alias `Sent`. -/
theorem resolveMailbox_resolution_wit :
    resolveMailbox envC3 (str "inbox") (str "A") ∈
      fetchedMailboxes envC3 (str "A") ∧
    resolveMailbox envC3b (str "sent") (str "A") = str "Sent Items" :=
  ⟨(resolveMailbox_resolution envC3 (str "inbox") (str "A") (by decide)
      (by decide)).2.2.2.2.2
      ⟨str "Inbox", by decide, Or.inl (by decide)⟩,
    (resolveMailbox_resolution envC3b (str "sent") (str "A") (by decide)
      (by decide)).2.2.1 (by decide) (by decide)
      [str "Sent"] (str "Sent Items")
      [str "Sent Messages", str "SENT", str "sent"]
      (by decide) (by decide) (by decide)⟩

/-- Probe 1 pass condition of `healthCheck` (the code's guard:
successful call answering `ok`). -/
def probe1Ok (env : JsEnv) : Bool :=
  (env.run mailAppCheckScript).success &&
    ((env.run mailAppCheckScript).output == str "ok")

/-- The permission-error detection of probe 2 (the code's
`isPermError`). -/
def permErrorDetected (env : JsEnv) : Bool :=
  optIncludes (env.run permCheckScript).error (str "not authorized") ||
    optIncludes (env.run permCheckScript).error (str "not permitted")

/-- Probe 2 records a failure, and `healthCheck` short-circuits, exactly
when the permission call failed with a detected permission error. -/
def probe2Fails (env : JsEnv) : Bool :=
  !(env.run permCheckScript).success && permErrorDetected env

/-- The `permissions` check entry `healthCheck` records when it does not
short-circuit at probe 2. -/
def permCheckItem (env : JsEnv) : HealthCheckItem :=
  if (env.run permCheckScript).success then
    ⟨str "permissions", true, str "AppleScript automation permissions granted"⟩
  else
    ⟨str "permissions", !permErrorDetected env,
      if permErrorDetected env then
        str "AppleScript permissions denied. Grant access in System Preferences > Privacy & Security > Automation"
      else str "Permission check returned: " ++
        optRender (env.run permCheckScript).error⟩

theorem healthCheck_probe1_fail (env : JsEnv) (st : Option Str)
    (h : probe1Ok env = false) :
    healthCheck env st = (⟨false, [⟨str "mail_app", false,
      str "Mail.app is not accessible" ++
        (if optIncludes (env.run mailAppCheckScript).error (str "not authorized")
          then str " (check Automation permissions in System Preferences)"
          else [])⟩]⟩, st) := by
  have h' : ((env.run mailAppCheckScript).success &&
      ((env.run mailAppCheckScript).output == str "ok")) = false := h
  simp only [healthCheck, h']
  simp

theorem healthCheck_probe2_fail (env : JsEnv) (st : Option Str)
    (h1 : probe1Ok env = true) (h2 : probe2Fails env = true) :
    healthCheck env st = (⟨false,
      [⟨str "mail_app", true, str "Mail.app is accessible"⟩,
       ⟨str "permissions", false,
        str "AppleScript permissions denied. Grant access in System Preferences > Privacy & Security > Automation"⟩]⟩,
      st) := by
  have h1' : ((env.run mailAppCheckScript).success &&
      ((env.run mailAppCheckScript).output == str "ok")) = true := h1
  have h2' : (!(env.run permCheckScript).success && permErrorDetected env) = true := h2
  rw [Bool.and_eq_true] at h2'
  have hps : (env.run permCheckScript).success = false := by
    have := h2'.1; cases hq : (env.run permCheckScript).success <;> simp_all
  have hq : permErrorDetected env = true := h2'.2
  have hq' : (optIncludes (env.run permCheckScript).error (str "not authorized") ||
      optIncludes (env.run permCheckScript).error (str "not permitted")) = true := hq
  simp only [healthCheck, h1', hps, hq', if_true]
  simp

theorem healthCheck_to_rest (env : JsEnv) (st : Option Str)
    (h1 : probe1Ok env = true) (h2 : probe2Fails env = false) :
    healthCheck env st = healthCheckRest env st
      ⟨str "mail_app", true, str "Mail.app is accessible"⟩
      (permCheckItem env) := by
  have h1' : ((env.run mailAppCheckScript).success &&
      ((env.run mailAppCheckScript).output == str "ok")) = true := h1
  by_cases hps : (env.run permCheckScript).success = true
  · simp only [healthCheck, h1', hps, if_true, permCheckItem]
  · have hps' : (env.run permCheckScript).success = false := by
      simpa using hps
    have hq : permErrorDetected env = false := by
      have h2' : (!(env.run permCheckScript).success && permErrorDetected env)
          = false := h2
      rw [hps'] at h2'
      simpa using h2'
    have hq' : (optIncludes (env.run permCheckScript).error (str "not authorized") ||
        optIncludes (env.run permCheckScript).error (str "not permitted")) = false := hq
    simp only [healthCheck, h1', hps', hq', permCheckItem]
    simp [hq]

theorem permCheckItem_name (env : JsEnv) :
    (permCheckItem env).name = str "permissions" := by
  unfold permCheckItem
  split <;> rfl

theorem listAccounts_congr (env env2 : JsEnv)
    (h : env2.run listAccountsScript = env.run listAccountsScript) :
    listAccounts env2 = listAccounts env := by
  simp only [listAccounts, h]

theorem probe1Ok_congr (env env2 : JsEnv)
    (h : env2.run mailAppCheckScript = env.run mailAppCheckScript) :
    probe1Ok env2 = probe1Ok env := by
  simp only [probe1Ok, h]

theorem probe2Fails_congr (env env2 : JsEnv)
    (h : env2.run permCheckScript = env.run permCheckScript) :
    probe2Fails env2 = probe2Fails env := by
  simp only [probe2Fails, permErrorDetected, h]

theorem permCheckItem_congr (env env2 : JsEnv)
    (h : env2.run permCheckScript = env.run permCheckScript) :
    permCheckItem env2 = permCheckItem env := by
  simp only [permCheckItem, permErrorDetected, h]

theorem healthCheckRest_no_accounts (env : JsEnv) (st : Option Str)
    (c1 c2 : HealthCheckItem) (h : listAccounts env = []) :
    healthCheckRest env st c1 c2 = (⟨false, [c1, c2, ⟨str "accounts", false,
      str "No Mail accounts found. Set up an account in Mail.app first."⟩]⟩,
      st) := by
  simp [healthCheckRest, h]

/-- C5: `healthCheck` runs its probes in the fixed order application
reachability, permission check, account presence, basic listing, and
after the first recorded failure among the first three it immediately
returns an unhealthy result containing only the checks recorded so far;
the result then does not depend on the execution of any later probe
(environments agreeing on the probes run so far produce the identical
result). -/
theorem healthCheck_short_circuit (env env2 : JsEnv) (st : Option Str) :
    (probe1Ok env = false →
      (healthCheck env st).1.healthy = false ∧
      (healthCheck env st).1.checks.map HealthCheckItem.name = [str "mail_app"] ∧
      (healthCheck env st).1.checks.map HealthCheckItem.passed = [false] ∧
      (env2.run mailAppCheckScript = env.run mailAppCheckScript →
        healthCheck env2 st = healthCheck env st)) ∧
    (probe1Ok env = true → probe2Fails env = true →
      (healthCheck env st).1.healthy = false ∧
      (healthCheck env st).1.checks.map HealthCheckItem.name =
        [str "mail_app", str "permissions"] ∧
      (healthCheck env st).1.checks.map HealthCheckItem.passed = [true, false] ∧
      (env2.run mailAppCheckScript = env.run mailAppCheckScript →
        env2.run permCheckScript = env.run permCheckScript →
        healthCheck env2 st = healthCheck env st)) ∧
    (probe1Ok env = true → probe2Fails env = false → listAccounts env = [] →
      (healthCheck env st).1.healthy = false ∧
      (healthCheck env st).1.checks.map HealthCheckItem.name =
        [str "mail_app", str "permissions", str "accounts"] ∧
      (healthCheck env st).1.checks.map HealthCheckItem.passed =
        [true, true, false] ∧
      (env2.run mailAppCheckScript = env.run mailAppCheckScript →
        env2.run permCheckScript = env.run permCheckScript →
        env2.run listAccountsScript = env.run listAccountsScript →
        healthCheck env2 st = healthCheck env st)) := by
  refine ⟨?_, ?_, ?_⟩
  · intro h
    rw [healthCheck_probe1_fail env st h]
    refine ⟨rfl, rfl, rfl, ?_⟩
    intro hagree
    rw [healthCheck_probe1_fail env2 st
      ((probe1Ok_congr env env2 hagree).trans h), hagree]
  · intro h1 h2
    rw [healthCheck_probe2_fail env st h1 h2]
    refine ⟨rfl, rfl, rfl, ?_⟩
    intro hm hp
    rw [healthCheck_probe2_fail env2 st
      ((probe1Ok_congr env env2 hm).trans h1)
      ((probe2Fails_congr env env2 hp).trans h2)]
  · intro h1 h2 h3
    have hpassed : (permCheckItem env).passed = true := by
      by_cases hps : (env.run permCheckScript).success = true
      · simp [permCheckItem, hps]
      · have hps' : (env.run permCheckScript).success = false := by simpa using hps
        have hq : permErrorDetected env = false := by
          have h2' : (!(env.run permCheckScript).success && permErrorDetected env)
              = false := h2
          rw [hps'] at h2'
          simpa using h2'
        simp [permCheckItem, hps', hq]
    rw [healthCheck_to_rest env st h1 h2, healthCheckRest_no_accounts env st _ _ h3]
    refine ⟨rfl, by simp [permCheckItem_name], by simp [hpassed], ?_⟩
    intro hm hp ha
    rw [healthCheck_to_rest env2 st ((probe1Ok_congr env env2 hm).trans h1)
      ((probe2Fails_congr env env2 hp).trans h2),
      healthCheckRest_no_accounts env2 st _ _
        ((listAccounts_congr env env2 ha).trans h3),
      permCheckItem_congr env env2 hp]

/-- Environment for the C5 witness: every external call fails, so
probe 1 fails. -/
def envC5 : JsEnv :=
  { run := fun _ => ⟨false, [], none⟩, dateParse := fun _ => none, now := 0 }

/-- Witness for C5: with probe 1 failing, the health check is unhealthy
and records exactly the one probe. -/
theorem healthCheck_short_circuit_wit :
    probe1Ok envC5 = false ∧
    (healthCheck envC5 none).1.healthy = false ∧
    (healthCheck envC5 none).1.checks.map HealthCheckItem.name =
      [str "mail_app"] :=
  ⟨by decide,
    ((healthCheck_short_circuit envC5 envC5 none).1 (by decide)).1,
    ((healthCheck_short_circuit envC5 envC5 none).1 (by decide)).2.1⟩

/-- C9: whenever the first three probes pass, `healthCheck` reports
healthy: the fourth probe's entry records `passed = true`
unconditionally, for every behaviour of the mailbox listing, so the
fourth step can never make the result unhealthy. -/
theorem healthCheck_fourth_probe_always_passes (env : JsEnv) (st : Option Str)
    (h1 : probe1Ok env = true) (h2 : probe2Fails env = false)
    (h3 : listAccounts env ≠ []) :
    (healthCheck env st).1.healthy = true ∧
    (healthCheck env st).1.checks.map HealthCheckItem.passed =
      [true, true, true, true] ∧
    (healthCheck env st).1.checks.map HealthCheckItem.name =
      [str "mail_app", str "permissions", str "accounts", str "operations"] := by
  have hpassed : (permCheckItem env).passed = true := by
    by_cases hps : (env.run permCheckScript).success = true
    · simp [permCheckItem, hps]
    · have hps' : (env.run permCheckScript).success = false := by simpa using hps
      have hq : permErrorDetected env = false := by
        have h2' : (!(env.run permCheckScript).success && permErrorDetected env)
            = false := h2
        rw [hps'] at h2'
        simpa using h2'
      simp [permCheckItem, hps', hq]
  have hne : (listAccounts env).isEmpty = false := by
    simp [List.isEmpty_iff, h3]
  rw [healthCheck_to_rest env st h1 h2]
  simp only [healthCheckRest, hne, Bool.false_eq_true, if_false]
  refine ⟨?_, by simp [hpassed], by simp [permCheckItem_name]⟩
  simp [List.all, hpassed]

/-- Environment for the C9 witness: probes 1 and 2 succeed, the account
listing reports one account. -/
def envC9 : JsEnv :=
  { run := fun s =>
      if s = mailAppCheckScript then ⟨true, str "ok", none⟩
      else if s = permCheckScript then ⟨true, str "A", none⟩
      else ⟨true, str "A|||a@x.com|||true", none⟩,
    dateParse := fun _ => none, now := 0 }

/-- Witness for C9: with the first three probes passing, the health
check reports healthy. -/
theorem healthCheck_fourth_probe_wit :
    (healthCheck envC9 none).1.healthy = true :=
  (healthCheck_fourth_probe_always_passes envC9 none (by decide) (by decide)
    (by decide)).1

theorem parseMessageItems_eq_filter (env : JsEnv) (mb acct : Str)
    (items : List Str) :
    parseMessageItems env mb acct items =
      (items.filter fun item =>
          decide (6 ≤ (splitOnStr (str "|||") item).length)).map
        fun item => messageOfParts env mb acct (splitOnStr (str "|||") item) := by
  induction items with
  | nil => rfl
  | cons item rest ih =>
    by_cases h : (splitOnStr (str "|||") item).length < 6
    · have hd : decide (6 ≤ (splitOnStr (str "|||") item).length) = false := by
        simp only [decide_eq_false_iff_not]
        omega
      simp [parseMessageItems, h, hd, ih]
    · have hd : decide (6 ≤ (splitOnStr (str "|||") item).length) = true := by
        simp only [decide_eq_true_eq]
        omega
      simp [parseMessageItems, h, hd, ih]

/-- C6: the message-list parser splits the raw text on the record
separator `|||ITEM|||` and each record on the field separator `|||`,
yields exactly one `Message` per record with at least the six expected
fields (id, subject, sender, date, read, flagged, projected in that
order by `messageOfParts`), and silently discards every record with
fewer fields; being a total function of the input text, it never throws
for any input string. -/
theorem parseMessageList_spec (env : JsEnv) (output mailbox account : Str) :
    parseMessageList env output mailbox account =
      ((splitOnStr (str "|||ITEM|||") output).filter fun item =>
          decide (6 ≤ (splitOnStr (str "|||") item).length)).map
        (fun item => messageOfParts env mailbox account
          (splitOnStr (str "|||") item)) ∧
    (parseMessageList env output mailbox account).length =
      ((splitOnStr (str "|||ITEM|||") output).filter fun item =>
          decide (6 ≤ (splitOnStr (str "|||") item).length)).length := by
  constructor
  · exact parseMessageItems_eq_filter env mailbox account _
  · rw [parseMessageList, parseMessageItems_eq_filter]
    exact List.length_map _ _

/-- C7: the date parser is total: when generic date parsing accepts the
text obtained by stripping the `date ` tag and normalizing the ` at `
separator, the parsed timestamp is returned, and for every string on
which it fails (in particular strings missing the expected tag or
format) the current time is returned, with no exception possible;
boolean message fields are true exactly when the field text equals the
literal `true`, and numeric fields parse as integers with 0 substituted
on parse failure. -/
theorem date_and_field_parsing (env : JsEnv) (s : Str) (t : Int)
    (parts : List Str) (mailbox account : Str) :
    (env.dateParse (normalizeAppleScriptDate s) = some t →
      parseAppleScriptDate env s = t) ∧
    (env.dateParse (normalizeAppleScriptDate s) = none →
      parseAppleScriptDate env s = env.now) ∧
    ((messageOfParts env mailbox account parts).isRead = true ↔
      parts.getD 4 [] = str "true") ∧
    ((messageOfParts env mailbox account parts).isFlagged = true ↔
      parts.getD 5 [] = str "true") ∧
    (parseIntJS s = none → parseIntOrZero s = 0) ∧
    (∀ n : Int, parseIntJS s = some n → parseIntOrZero s = n) := by
  refine ⟨?_, ?_, ?_, ?_, ?_, ?_⟩
  · intro h; simp [parseAppleScriptDate, h]
  · intro h; simp [parseAppleScriptDate, h]
  · simp [messageOfParts]
  · simp [messageOfParts]
  · intro h; simp [parseIntOrZero, h]
  · intro n h; simp [parseIntOrZero, h]

/-- Environment for the C7 witness: generic date parsing rejects every
string and the current time is 77. -/
def envC7 : JsEnv :=
  { run := fun _ => ⟨true, [], none⟩, dateParse := fun _ => none, now := 77 }

/-- Witness for C7 at the unparsable text `abc`: the date parser falls
back to the current time 77 and the integer parser falls back to 0. -/
theorem date_and_field_parsing_wit :
    parseAppleScriptDate envC7 (str "abc") = 77 ∧
    parseIntOrZero (str "abc") = 0 :=
  ⟨(date_and_field_parsing envC7 (str "abc") 0 [] [] []).2.1 (by decide),
    (date_and_field_parsing envC7 (str "abc") 0 [] [] []).2.2.2.2.1 (by decide)⟩

theorem mem_parseMessageList_fields (env : JsEnv) (out mb acct : Str)
    (m : Message) (h : m ∈ parseMessageList env out mb acct) :
    m.recipients = [] ∧ m.isJunk = false ∧ m.isDeleted = false ∧
      m.hasAttachments = false := by
  rw [parseMessageList, parseMessageItems_eq_filter] at h
  obtain ⟨item, hitem, rfl⟩ := List.mem_map.mp h
  exact ⟨rfl, rfl, rfl, rfl⟩

/-- C10: every message produced by `listMessages` and `searchMessages`
has an empty recipient list and junk, deleted, and attachment flags
fixed to false, and every message produced by `getMessageById` has an
empty recipient list and attachment flag fixed to false, for every
behaviour of the external store: these fields are constants of the
parsing, not projections of the store. -/
theorem message_constant_fields (env : JsEnv) (st : Option Str)
    (query mailbox account : Option Str) (limit : Nat) (id : Str)
    (m m2 m3 : Message) :
    (m ∈ (listMessages env st mailbox account limit).1 →
      m.recipients = [] ∧ m.isJunk = false ∧ m.isDeleted = false ∧
        m.hasAttachments = false) ∧
    (m2 ∈ (searchMessages env st query mailbox account limit).1 →
      m2.recipients = [] ∧ m2.isJunk = false ∧ m2.isDeleted = false ∧
        m2.hasAttachments = false) ∧
    (getMessageById env id = some m3 →
      m3.recipients = [] ∧ m3.hasAttachments = false) := by
  refine ⟨?_, ?_, ?_⟩
  · intro h
    simp only [listMessages] at h
    repeat' split at h
    all_goals first
      | exact mem_parseMessageList_fields _ _ _ _ _ h
      | simp at h
  · intro h
    simp only [searchMessages] at h
    repeat' split at h
    all_goals first
      | exact mem_parseMessageList_fields _ _ _ _ _ h
      | simp at h
  · intro h
    simp only [getMessageById] at h
    repeat' split at h
    all_goals first
      | (obtain rfl : _ = m3 := Option.some.inj h; exact ⟨rfl, rfl⟩)
      | simp at h

/-- Environment for the first part of the C10 witness: every call
succeeds with a six-field message row. -/
def envC10a : JsEnv :=
  { run := fun _ => ⟨true, str "1|||s|||x|||d|||true|||false", none⟩,
    dateParse := fun _ => none, now := 0 }

/-- Environment for the second part of the C10 witness: every call
succeeds with a nine-field `getMessageById` row. -/
def envC10b : JsEnv :=
  { run := fun _ =>
      ⟨true, str "s|||x|||d|||true|||false|||false|||false|||INBOX|||Acct", none⟩,
    dateParse := fun _ => none, now := 0 }

/-- The message `listMessages` produces under `envC10a`. -/
def msgC10a : Message :=
  { id := str "1", subject := str "s", sender := str "x", recipients := [],
    dateReceived := 0, isRead := true, isFlagged := false, isJunk := false,
    isDeleted := false, mailbox := str "INBOX", account := str "1",
    hasAttachments := false }

/-- The message `getMessageById` produces under `envC10b`. -/
def msgC10b : Message :=
  { id := str "5", subject := str "s", sender := str "x", recipients := [],
    dateReceived := 0, isRead := true, isFlagged := false, isJunk := false,
    isDeleted := false, mailbox := str "INBOX", account := str "Acct",
    hasAttachments := false }

/-- Witness for C10 at concrete parsed messages. -/
theorem message_constant_fields_wit :
    msgC10a ∈ (listMessages envC10a none none none 50).1 ∧
    msgC10a.recipients = [] ∧ msgC10a.isJunk = false ∧
    getMessageById envC10b (str "5") = some msgC10b ∧
    msgC10b.recipients = [] ∧ msgC10b.hasAttachments = false := by
  have hmem : msgC10a ∈ (listMessages envC10a none none none 50).1 := by decide
  have hget : getMessageById envC10b (str "5") = some msgC10b := by decide
  have h1 := (message_constant_fields envC10a none none none none 50 (str "5")
    msgC10a msgC10a msgC10b).1 hmem
  have h3 := (message_constant_fields envC10b none none none none 50 (str "5")
    msgC10a msgC10a msgC10b).2.2 hget
  exact ⟨hmem, h1.1, h1.2.1, hget, h3.1, h3.2⟩

end AppleMailMCP
